import Mathlib

/-! Verification development for the document-similarity-checker repository.

The Python sources (`checker.py`, `gui_app.py`) are shallowly embedded below:
pure functions become Lean functions over `ℚ` (modelling Python floats) and
`String`; fallible code returns `Except`; the sklearn vectorizer/cosine call is
modelled structurally (the similarity matrix as a Gram matrix of row vectors).
-/

namespace DocSim

/-- Equality of `Except` values is decidable when it is on both sides;
used to evaluate the embedded loader on concrete inputs. -/
instance {ε α : Type} [DecidableEq ε] [DecidableEq α] : DecidableEq (Except ε α) := by
  intro a b
  cases a <;> cases b
  case error.error e f => exact if h : e = f then isTrue (by rw [h]) else isFalse (by
    intro hc
    exact h (Except.error.inj hc))
  case error.ok e v => exact isFalse (by intro hc; exact Except.noConfusion hc)
  case ok.error v e => exact isFalse (by intro hc; exact Except.noConfusion hc)
  case ok.ok v w => exact if h : v = w then isTrue (by rw [h]) else isFalse (by
    intro hc
    exact h (Except.ok.inj hc))

/-- Models Python's `str.lower()` by mapping `Char.toLower` over the
characters; written by structural recursion over the character list so the
kernel can evaluate it on concrete strings. -/
def strLower (s : String) : String := ⟨s.data.map Char.toLower⟩

/-- Models Python's `str.strip()`: drop leading and trailing whitespace
characters; written over the character list so the kernel can evaluate it. -/
def strStrip (s : String) : String :=
  ⟨((s.data.dropWhile Char.isWhitespace).reverse.dropWhile Char.isWhitespace).reverse⟩

/-- Embeds `similarity_risk_level` from `checker.py` lines 13-24 (the copy in
`gui_app.py` lines 15-23 is textually identical): maps a percent score to a
risk label via fixed thresholds, testing `>= 85`, `>= 70`, `>= 50` in order. -/
def similarity_risk_level (score : ℚ) : String :=
  if score ≥ 85 then "HIGH RISK 🔴"
  else if score ≥ 70 then "MEDIUM RISK 🟠"
  else if score ≥ 50 then "MILD SIMILARITY 🟡"
  else "SAFE 🟢"

/-- Embeds the threshold acquisition in `main` (`checker.py` lines 191-196):
the outcome of Python's `float(input(...))` is passed in as an `Except`
value (`Except.error ()` models the `ValueError`/any exception raised when the
string does not parse as a float); on success the value is divided by 100,
on failure the handler falls back to `0.50`. -/
def computeThreshold (parsed : Except Unit ℚ) : ℚ :=
  match parsed with
  | Except.ok v => v / 100
  | Except.error _ => 0.50

/-- The two comparison modes offered by the CLI menu in `checker.py`. -/
inductive Mode
  | standard
  | enhanced
  deriving DecidableEq, Repr

/-- Embeds mode selection in `main` (`checker.py` lines 189 and 204-209):
the raw input line is stripped (`input(...).strip()`, line 189) and the
stripped value is compared against the literal string of the digit two;
any other value selects the standard 1-3 n-gram TF-IDF mode. -/
def chooseMode (raw : String) : Mode :=
  if strStrip raw = "2" then Mode.enhanced else Mode.standard

/-- A file found by `folder.glob` in `load_documents` (`checker.py` lines
29-75). `suffix` is the file extension as Python's `Path.suffix` reports it;
`readable` is false when reading/parsing the source raises (an unreadable or
corrupted file: `OSError` from `read_text`, a parse error from `PyPDF2`, or
from `docx.Document`); the remaining fields carry the data each format branch
extracts (`txtContent` for the txt branch, `pdfPages` — `none` for a page
whose `extract_text()` returns `None` — for the pdf branch, `docxParas` for
the docx branch). -/
structure SourceFile where
  name : String
  suffix : String
  readable : Bool
  txtContent : String
  pdfPages : List (Option String)
  docxParas : List String
  deriving DecidableEq, Repr, Inhabited

/-- Embeds the per-extension extraction in the body of the `load_documents`
loop (`checker.py` lines 39-58): dispatch on the lowercased suffix; the txt
branch reads the file's text, the pdf branch concatenates
`page.extract_text() or ""` over the pages, the docx branch newline-joins the
paragraphs. An unreadable/corrupted source raises, which `Except.error ()`
models; no branch of the source catches it. -/
def extractFile (f : SourceFile) : Except Unit String :=
  if ¬ f.readable then Except.error ()
  else
    let ext := strLower f.suffix
    if ext = ".txt" then Except.ok f.txtContent
    else if ext = ".pdf" then
      Except.ok ((f.pdfPages.map (fun p => p.getD "")).foldl (fun a b => a ++ b) "")
    else if ext = ".docx" then
      Except.ok (String.intercalate "\n" f.docxParas)
    else Except.ok ""

/-- Whether the lowercased suffix is one the `load_documents` loop handles;
any other extension hits the `else` branch at `checker.py` line 61 and the
file is skipped with a message. -/
def supportedExt (f : SourceFile) : Bool :=
  strLower f.suffix = ".txt" ∨ strLower f.suffix = ".pdf" ∨ strLower f.suffix = ".docx"

/-- Embeds the `for f in files` loop of `load_documents` (`checker.py` lines
38-70): unsupported extensions are skipped (`continue`), a supported file is
extracted — an exception raised there propagates out of the whole loop, since
the source has no `try` around the body — and the text is kept together with
the file exactly when it is non-empty after stripping. -/
def loadLoop : List SourceFile → Except Unit (List SourceFile × List String)
  | [] => Except.ok ([], [])
  | f :: fs =>
    if supportedExt f then
      match extractFile f with
      | Except.error e => Except.error e
      | Except.ok text =>
        match loadLoop fs with
        | Except.error e => Except.error e
        | Except.ok (vfs, texts) =>
          if strStrip text ≠ "" then Except.ok (f :: vfs, text :: texts)
          else Except.ok (vfs, texts)
    else loadLoop fs

/-- Failure outcomes of `load_documents`: an uncaught exception escaping the
extraction loop, or the explicit `ValueError` at `checker.py` line 73 when no
valid file remains. -/
inductive LoadError
  | extractionFailure
  | noValidFiles
  deriving DecidableEq, Repr

/-- Embeds `load_documents` (`checker.py` lines 29-75) on the sorted file
listing: run the extraction loop, then raise `ValueError` when `valid_files`
is empty, otherwise return the aligned pair `(valid_files, texts)`. -/
def load_documents (files : List SourceFile) : Except LoadError (List SourceFile × List String) :=
  match loadLoop files with
  | Except.error _ => Except.error LoadError.extractionFailure
  | Except.ok (vfs, texts) =>
    if vfs = [] then Except.error LoadError.noValidFiles
    else Except.ok (vfs, texts)

/-- The text a successful extraction yields (the unreachable `error` case
maps to the empty string); used to state what the loop keeps. -/
def extractedText (f : SourceFile) : String :=
  match extractFile f with
  | Except.ok t => t
  | Except.error _ => ""

/-- The files the loop keeps, written directly as a filter: the supported
files whose extracted text is non-blank after stripping. -/
def validFilesOf (files : List SourceFile) : List SourceFile :=
  files.filter (fun f => supportedExt f && decide (strStrip (extractedText f) ≠ ""))

/-- The texts kept alongside `validFilesOf`, index-aligned with it. -/
def textsOf (files : List SourceFile) : List String :=
  (validFilesOf files).map extractedText

/-- Sample file: a readable plain-text document with non-blank content. -/
def fileGoodTxt : SourceFile :=
  { name := "a.txt", suffix := ".txt", readable := true,
    txtContent := "hello world", pdfPages := [], docxParas := [] }

/-- Sample file: a corrupted PDF — `PyPDF2.PdfReader` raises on it. -/
def fileBadPdf : SourceFile :=
  { name := "b.pdf", suffix := ".pdf", readable := false,
    txtContent := "", pdfPages := [], docxParas := [] }

/-- Sample file: a readable file with an unsupported extension. -/
def fileNotesMd : SourceFile :=
  { name := "c.md", suffix := ".md", readable := true,
    txtContent := "notes", pdfPages := [], docxParas := [] }

/-- Sample file: a readable plain-text document that is whitespace-only. -/
def fileBlankTxt : SourceFile :=
  { name := "d.txt", suffix := ".txt", readable := true,
    txtContent := "  \n ", pdfPages := [], docxParas := [] }

/-- Dot product of two rational vectors, the core arithmetic of the matrix
product `X_normalized @ X_normalized.T` that sklearn's `cosine_similarity`
performs inside `compute_similarity_matrix` / `compute_semantic_similarity`
(`checker.py` lines 80-102) and `compute_similarity` (`gui_app.py` 57-65). -/
def dotp : List ℚ → List ℚ → ℚ
  | [], _ => 0
  | _, [] => 0
  | a :: as_, b :: bs => a * b + dotp as_ bs

/-- Embeds the similarity-matrix structure of `compute_similarity_matrix`,
`compute_semantic_similarity` (`checker.py` lines 80-102) and
`compute_similarity` (`gui_app.py` lines 57-65): sklearn's
`cosine_similarity(tfidf)` L2-normalizes each TF-IDF row and returns the Gram
matrix of the normalized rows, so entry `[i,j]` is the dot product of rows
`i` and `j`. The TF-IDF weighting and the normalization live inside sklearn
and are abstracted into the row values `rows`; the Gram-matrix structure is
the code's. Both the standard (1-3 n-gram) and enhanced (1-5 n-gram) modes
share this structure, differing only in the rows produced. -/
def cosine_similarity (rows : List (List ℚ)) (i j : ℕ) : ℚ :=
  dotp (rows.getD i []) (rows.getD j [])

/-- The index pairs enumerated by the nested loops
`for i in range(n): for j in range(i+1, n)` of `generate_report`
(`checker.py` lines 116-117) and of the GUI result loop (`gui_app.py` lines
198-199), in the loops' order. -/
def pythonPairs (n : ℕ) : List (ℕ × ℕ) :=
  (List.range n).flatMap (fun i => (List.range' (i + 1) (n - (i + 1))).map (fun j => (i, j)))

/-- Embeds the flattening step (`checker.py` lines 115-119, `gui_app.py`
lines 197-201): for each enumerated pair `(i, j)` with `i < j`, record
`(files[i].name, files[j].name, sim_matrix[i, j] * 100)`. The matrix is
passed as a function of the two indices. -/
def flattenResults (names : List String) (M : ℕ → ℕ → ℚ) : List (String × String × ℚ) :=
  (pythonPairs names.length).map (fun p => (names.getD p.1 "", names.getD p.2 "", M p.1 p.2 * 100))

/-- The score component of a flattened pair result, `x[2]` in the Python
sort key. -/
def scoreOf (r : String × String × ℚ) : ℚ := r.2.2

/-- The comparison underlying `results.sort(key=lambda x: x[2], reverse=True)`
(`checker.py` line 125, `gui_app.py` line 203): `a` may precede `b` exactly
when `a`'s score is at least `b`'s. -/
def scoreGe (a b : String × String × ℚ) : Prop := scoreOf b ≤ scoreOf a

instance : DecidableRel scoreGe := fun a b => inferInstanceAs (Decidable (scoreOf b ≤ scoreOf a))

instance : IsTotal (String × String × ℚ) scoreGe :=
  ⟨fun a b => le_total (scoreOf b) (scoreOf a)⟩

instance : IsTrans (String × String × ℚ) scoreGe :=
  ⟨fun _ _ _ h1 h2 => le_trans h2 h1⟩

/-- Embeds `results.sort(key=lambda x: x[2], reverse=True)` (`checker.py`
line 125, `gui_app.py` line 203). Python's `list.sort` is a stable sort and
`reverse=True` sorts by descending key while keeping equal-key elements in
their original order; it is modelled by a stable sorting algorithm under
`scoreGe`. -/
def sortResults (rs : List (String × String × ℚ)) : List (String × String × ℚ) :=
  List.insertionSort scoreGe rs

/-- The summary block computed by `generate_report` (`checker.py` lines
127-136) and by the GUI (`gui_app.py` lines 205-209): first element of the
sorted list, last element, arithmetic mean of the scores, and the counts. -/
structure Summary where
  totalComparisons : ℕ
  highest : String × String × ℚ
  lowest : String × String × ℚ
  avg : ℚ
  deriving DecidableEq, Repr

/-- Placeholder pair used only to state `headD`/`getLastD`; the source indexes
`results[0]` / `results[-1]` only on a non-empty list. -/
def dummyResult : String × String × ℚ := ("", "", 0)

/-- Embeds the aggregation of `generate_report` (`checker.py` lines 127-129:
`highest = results[0]`, `lowest = results[-1]`,
`avg = sum(r[2] for r in results) / len(results)`), applied to the sorted
result list. -/
def aggregate (rs : List (String × String × ℚ)) : Summary :=
  { totalComparisons := rs.length
    highest := rs.headD dummyResult
    lowest := rs.getLastD dummyResult
    avg := (rs.map scoreOf).sum / (rs.length : ℚ) }

/-- Outcome of `generate_report`: either the early `"No document pairs to
compare."` return (`checker.py` lines 121-123) or a report built from the
summary statistics. -/
inductive ReportOutcome
  | nothingToCompare
  | report (s : Summary)
  deriving DecidableEq, Repr

/-- Embeds the result-handling skeleton of `generate_report` (`checker.py`
lines 115-129): flatten the matrix into pair results; if there are none,
return the distinct "nothing to compare" outcome before any statistic is
computed; otherwise sort and aggregate. -/
def generate_report (names : List String) (M : ℕ → ℕ → ℚ) : ReportOutcome :=
  let results := flattenResults names M
  if results = [] then ReportOutcome.nothingToCompare
  else ReportOutcome.report (aggregate (sortResults results))

/-- Sample similarity matrix for witnesses: 1 on the diagonal, 1/2 off it. -/
def halfMatrix : ℕ → ℕ → ℚ := fun i j => if i = j then 1 else 1/2

/-- Sample sorted result list with scores 100, 60, 20, as in the spec's
aggregation example. -/
def sampleSorted : List (String × String × ℚ) :=
  [("a.txt", "b.txt", 100), ("a.txt", "c.txt", 60), ("b.txt", "c.txt", 20)]

/-! Theorems. -/

/-- Claim C3: for every score `s` in `[0, 100]`, `similarity_risk_level`
returns HIGH RISK iff `s ≥ 85`, MEDIUM RISK iff `70 ≤ s < 85`, MILD
SIMILARITY iff `50 ≤ s < 70`, and SAFE iff `s < 50`; each boundary value
85, 70, 50 belongs to the higher-risk bucket. -/
theorem similarity_risk_level_buckets (s : ℚ) (h0 : 0 ≤ s) (h100 : s ≤ 100) :
    (similarity_risk_level s = "HIGH RISK 🔴" ↔ 85 ≤ s) ∧
    (similarity_risk_level s = "MEDIUM RISK 🟠" ↔ 70 ≤ s ∧ s < 85) ∧
    (similarity_risk_level s = "MILD SIMILARITY 🟡" ↔ 50 ≤ s ∧ s < 70) ∧
    (similarity_risk_level s = "SAFE 🟢" ↔ s < 50) := by
  unfold similarity_risk_level
  split_ifs with hA hB hC
  · exact ⟨⟨fun _ => hA, fun _ => rfl⟩,
      ⟨fun hx => absurd hx (by decide), fun hx => absurd hA (not_le.mpr hx.2)⟩,
      ⟨fun hx => absurd hx (by decide), fun hx => absurd hA (not_le.mpr (hx.2.trans (by norm_num)))⟩,
      ⟨fun hx => absurd hx (by decide),
        fun hx => absurd hA (not_le.mpr (hx.trans (by norm_num)))⟩⟩
  · exact ⟨⟨fun hx => absurd hx (by decide), fun hx => absurd hx hA⟩,
      ⟨fun _ => ⟨hB, not_le.mp hA⟩, fun _ => rfl⟩,
      ⟨fun hx => absurd hx (by decide), fun hx => absurd hB (not_le.mpr hx.2)⟩,
      ⟨fun hx => absurd hx (by decide),
        fun hx => absurd hB (not_le.mpr (hx.trans (by norm_num)))⟩⟩
  · exact ⟨⟨fun hx => absurd hx (by decide), fun hx => absurd ((by norm_num : (70:ℚ) ≤ 85).trans hx) hB⟩,
      ⟨fun hx => absurd hx (by decide), fun hx => absurd hx.1 hB⟩,
      ⟨fun _ => ⟨hC, not_le.mp hB⟩, fun _ => rfl⟩,
      ⟨fun hx => absurd hx (by decide),
        fun hx => absurd hC (not_le.mpr hx)⟩⟩
  · exact ⟨⟨fun hx => absurd hx (by decide), fun hx => absurd ((by norm_num : (50:ℚ) ≤ 85).trans hx) hC⟩,
      ⟨fun hx => absurd hx (by decide), fun hx => absurd ((by norm_num : (50:ℚ) ≤ 70).trans hx.1) hC⟩,
      ⟨fun hx => absurd hx (by decide), fun hx => absurd hx.1 hC⟩,
      ⟨fun _ => not_le.mp hC, fun _ => rfl⟩⟩

/-- Witness for C3: the boundary score 85 lies in `[0, 100]` and the bucket
characterization holds there. -/
theorem similarity_risk_level_buckets_witness :
    (similarity_risk_level 85 = "HIGH RISK 🔴" ↔ (85:ℚ) ≤ 85) ∧
    (similarity_risk_level 85 = "MEDIUM RISK 🟠" ↔ (70:ℚ) ≤ 85 ∧ (85:ℚ) < 85) ∧
    (similarity_risk_level 85 = "MILD SIMILARITY 🟡" ↔ (50:ℚ) ≤ 85 ∧ (85:ℚ) < 70) ∧
    (similarity_risk_level 85 = "SAFE 🟢" ↔ (85:ℚ) < 50) :=
  similarity_risk_level_buckets 85 (by norm_num) (by norm_num)

/-- Claim C8: when the threshold input does not parse as a number (the
`float` call raises), the CLI falls back to the documented default of 50%
(threshold fraction 1/2) and continues. -/
theorem computeThreshold_fallback : computeThreshold (Except.error ()) = 1 / 2 := by
  norm_num [computeThreshold]

/-- Claim C6: for a corpus with exactly one valid document, `generate_report`
produces zero pair results and returns the distinct "nothing to compare"
outcome without computing summary statistics. -/
theorem generate_report_single_document (name : String) (M : ℕ → ℕ → ℚ) :
    generate_report [name] M = ReportOutcome.nothingToCompare := rfl

/-- Counterexample for C10: the raw CLI input `" 2"` is not exactly the
string `"2"`, yet because `main` strips the input before comparing, it
selects the enhanced mode rather than the standard one. -/
theorem chooseMode_counterexample :
    chooseMode " 2" = Mode.enhanced ∧ " 2" ≠ "2" := by decide

/-- Claim C10 (amended): every mode input whose stripped form is not the
string `"2"` — including empty or invalid input — selects the standard 1-3
n-gram TF-IDF mode, and mode selection is a total function that never
raises. -/
theorem chooseMode_default_standard (raw : String) (h : strStrip raw ≠ "2") :
    chooseMode raw = Mode.standard := by
  unfold chooseMode
  exact if_neg h

/-- Witness for C10: the invalid input `"abc"` strips to something other
than `"2"` and selects the standard mode. -/
theorem chooseMode_default_standard_witness :
    strStrip "abc" ≠ "2" ∧ chooseMode "abc" = Mode.standard :=
  ⟨by decide, chooseMode_default_standard "abc" (by decide)⟩

/-- A readable source never raises in any extraction branch. -/
theorem extractFile_ok_of_readable (f : SourceFile) (h : f.readable = true) :
    ∃ t, extractFile f = Except.ok t := by
  unfold extractFile
  rw [h]
  rw [if_neg (by simp)]
  dsimp only
  split_ifs <;> exact ⟨_, rfl⟩

/-- Counterexample for C1: a corpus of one good text file and one corrupted
PDF. The good file alone loads fine, but adding the corrupted PDF makes the
whole `load_documents` run abort with the uncaught extraction exception —
the corrupted document is not skipped with a warning. -/
theorem load_documents_abort_counterexample :
    load_documents [fileGoodTxt] = Except.ok ([fileGoodTxt], ["hello world"]) ∧
    load_documents [fileGoodTxt, fileBadPdf] = Except.error LoadError.extractionFailure := by
  decide

/-- Claim C1 (amended): when every document source is readable (so no
extraction raises), the loading loop excludes every document whose extension
is unsupported or whose extracted text is empty/whitespace-only, with a
warning, and continues through the remaining documents, returning exactly
the valid files and their texts. (A document whose source is unreadable or
corrupted instead raises an uncaught exception that aborts the whole run.) -/
theorem loadLoop_skips_bad_documents (files : List SourceFile)
    (h : ∀ f ∈ files, f.readable = true) :
    loadLoop files = Except.ok (validFilesOf files, textsOf files) := by
  induction files with
  | nil => rfl
  | cons f fs ih =>
    have hrest := ih (fun g hg => h g (List.mem_cons_of_mem f hg))
    obtain ⟨t, ht⟩ := extractFile_ok_of_readable f (h f (List.mem_cons_self f fs))
    have hext : extractedText f = t := by simp [extractedText, ht]
    by_cases hs : supportedExt f = true
    · by_cases hb : strStrip t = ""
      · simp [loadLoop, validFilesOf, textsOf, List.filter_cons, hs, ht, hrest, hext, hb]
      · simp [loadLoop, validFilesOf, textsOf, List.filter_cons, hs, ht, hrest, hext, hb]
    · simp [loadLoop, validFilesOf, textsOf, List.filter_cons, hs, hrest]

/-- Witness for C1 (amended): a corpus of a good text file, an unsupported
markdown file and a whitespace-only text file is loaded with the two bad
documents skipped and the good one kept. -/
theorem loadLoop_skips_bad_documents_witness :
    (∀ f ∈ [fileGoodTxt, fileNotesMd, fileBlankTxt], f.readable = true) ∧
    loadLoop [fileGoodTxt, fileNotesMd, fileBlankTxt] =
      Except.ok (validFilesOf [fileGoodTxt, fileNotesMd, fileBlankTxt],
        textsOf [fileGoodTxt, fileNotesMd, fileBlankTxt]) :=
  ⟨by decide, loadLoop_skips_bad_documents _ (by decide)⟩

/-- The extraction loop keeps its two accumulators index-aligned: equal
lengths, and position `i` of the texts is the non-blank extraction result of
position `i` of the valid files. -/
theorem loadLoop_aligned (files : List SourceFile) :
    ∀ vfs texts, loadLoop files = Except.ok (vfs, texts) →
      vfs.length = texts.length ∧
      ∀ i, i < vfs.length →
        extractFile (vfs.getD i default) = Except.ok (texts.getD i "") ∧
        strStrip (texts.getD i "") ≠ "" := by
  induction files with
  | nil =>
    intro vfs texts h
    simp only [loadLoop, Except.ok.injEq, Prod.mk.injEq] at h
    obtain ⟨h1, h2⟩ := h
    subst h1; subst h2
    exact ⟨rfl, fun i hi => absurd hi (Nat.not_lt_zero i)⟩
  | cons f fs ih =>
    intro vfs texts h
    simp only [loadLoop] at h
    split at h
    · split at h
      · exact absurd h (by simp)
      · rename_i t hE
        split at h
        · exact absurd h (by simp)
        · rename_i vfs' texts' hL
          have ihp := ih vfs' texts' hL
          split at h
          · rename_i hb
            simp only [Except.ok.injEq, Prod.mk.injEq] at h
            obtain ⟨h1, h2⟩ := h
            subst h1; subst h2
            refine ⟨by simp [ihp.1], fun i hi => ?_⟩
            cases i with
            | zero => exact ⟨by simpa using hE, by simpa using hb⟩
            | succ n =>
              simp only [List.getD_cons_succ]
              exact ihp.2 n (by simpa using hi)
          · simp only [Except.ok.injEq, Prod.mk.injEq] at h
            obtain ⟨h1, h2⟩ := h
            subst h1; subst h2
            exact ihp
    · exact ih vfs texts h

/-- Claim C9: on success, `load_documents` returns two index-aligned lists of
equal length: `texts[i]` is the text extracted from `valid_files[i]` and is
non-empty after stripping whitespace. -/
theorem load_documents_aligned (files vfs : List SourceFile) (texts : List String)
    (h : load_documents files = Except.ok (vfs, texts)) :
    vfs.length = texts.length ∧
    ∀ i, i < vfs.length →
      extractFile (vfs.getD i default) = Except.ok (texts.getD i "") ∧
      strStrip (texts.getD i "") ≠ "" := by
  have hloop : loadLoop files = Except.ok (vfs, texts) := by
    unfold load_documents at h
    split at h
    · exact absurd h (by simp)
    · rename_i vfs' texts' hL
      split at h
      · exact absurd h (by simp)
      · simp only [Except.ok.injEq, Prod.mk.injEq] at h
        obtain ⟨h1, h2⟩ := h
        subst h1; subst h2
        exact hL
  exact loadLoop_aligned files vfs texts hloop

/-- Witness for C9: loading a corpus of one good text file and one
unsupported file yields aligned singleton lists. -/
theorem load_documents_aligned_witness :
    ([fileGoodTxt] : List SourceFile).length = (["hello world"] : List String).length ∧
    ∀ i, i < ([fileGoodTxt] : List SourceFile).length →
      extractFile (([fileGoodTxt] : List SourceFile).getD i default) =
        Except.ok ((["hello world"] : List String).getD i "") ∧
      strStrip ((["hello world"] : List String).getD i "") ≠ "" :=
  load_documents_aligned [fileGoodTxt, fileNotesMd] [fileGoodTxt] ["hello world"] (by decide)

/-- The dot product is commutative; this is the only fact about the row
vectors the symmetry of the Gram matrix needs. -/
theorem dotp_comm (u : List ℚ) : ∀ v, dotp u v = dotp v u := by
  induction u with
  | nil => intro v; cases v <;> rfl
  | cons a as_ ih =>
    intro v
    cases v with
    | nil => rfl
    | cons b bs => simp [dotp, ih bs, mul_comm]

/-- Claim C7: the similarity matrix produced by the similarity computation
is exactly symmetric: entry `[i, j]` equals entry `[j, i]` for every pair of
indices, for every corpus of row vectors. -/
theorem cosine_similarity_symm (rows : List (List ℚ)) (i j : ℕ) :
    cosine_similarity rows i j = cosine_similarity rows j i :=
  dotp_comm _ _

/-- A `List.map` sum over `List.range` is the corresponding `Finset.range`
sum. -/
theorem sum_map_range (f : ℕ → ℕ) (n : ℕ) :
    ((List.range n).map f).sum = ∑ i ∈ Finset.range n, f i := by
  induction n with
  | zero => rfl
  | succ m ih =>
    rw [List.range_succ, List.map_append, List.sum_append, ih, Finset.sum_range_succ]
    simp

/-- The nested loops enumerate `n * (n - 1) / 2` index pairs. -/
theorem pythonPairs_length (n : ℕ) : (pythonPairs n).length = n * (n - 1) / 2 := by
  unfold pythonPairs
  rw [List.length_flatMap]
  simp only [Function.comp_def, List.length_map, List.length_range']
  rw [sum_map_range]
  have h1 : ∀ i : ℕ, n - (i + 1) = n - 1 - i := fun i => by omega
  calc (∑ i ∈ Finset.range n, (n - (i + 1)))
      = ∑ i ∈ Finset.range n, (n - 1 - i) := Finset.sum_congr rfl (fun i _ => h1 i)
    _ = ∑ i ∈ Finset.range n, i := Finset.sum_range_reflect (fun i => i) n
    _ = n * (n - 1) / 2 := Finset.sum_range_id n

/-- The nested loops enumerate exactly the pairs `i < j < n`. -/
theorem pythonPairs_mem (n i j : ℕ) : (i, j) ∈ pythonPairs n ↔ i < j ∧ j < n := by
  unfold pythonPairs
  simp only [List.mem_flatMap, List.mem_map, List.mem_range, List.mem_range'_1, Prod.mk.injEq]
  constructor
  · rintro ⟨a, ha, b, ⟨hb1, hb2⟩, rfl, rfl⟩
    omega
  · rintro ⟨hij, hjn⟩
    exact ⟨i, by omega, j, ⟨by omega, by omega⟩, rfl, rfl⟩

/-- The nested loops never produce the same index pair twice. -/
theorem pythonPairs_nodup (n : ℕ) : (pythonPairs n).Nodup := by
  unfold pythonPairs
  rw [List.nodup_flatMap]
  constructor
  · intro i _
    exact (List.nodup_range' (i + 1) (n - (i + 1))).map
      (fun a b h => (Prod.mk.injEq _ _ _ _).mp h |>.2)
  · refine List.Pairwise.imp ?_ (List.nodup_range n)
    intro a b hab
    simp only [Function.onFun]
    intro p hp1 hp2
    simp only [List.mem_map] at hp1 hp2
    obtain ⟨x1, _, rfl⟩ := hp1
    obtain ⟨x2, _, h2⟩ := hp2
    exact hab (congrArg Prod.fst h2).symm

/-- Claim C2: for a corpus of `n` documents and its similarity matrix `M`
(entries in `[0, 1]`), the flattening step produces exactly
`n * (n - 1) / 2` pair results, enumerates each unordered pair `i < j`
exactly once, records score `M[i, j] * 100` for the pair `(i, j)`, and every
score lies in `[0, 100]`. -/
theorem flattenResults_spec (names : List String) (M : ℕ → ℕ → ℚ)
    (hM : ∀ i j, i < names.length → j < names.length → 0 ≤ M i j ∧ M i j ≤ 1) :
    (flattenResults names M).length = names.length * (names.length - 1) / 2 ∧
    ((pythonPairs names.length).Nodup ∧
      ∀ i j : ℕ, (i, j) ∈ pythonPairs names.length ↔ i < j ∧ j < names.length) ∧
    (∀ i j : ℕ, i < j → j < names.length →
      (names.getD i "", names.getD j "", M i j * 100) ∈ flattenResults names M) ∧
    (∀ r ∈ flattenResults names M, 0 ≤ scoreOf r ∧ scoreOf r ≤ 100) := by
  refine ⟨?_, ⟨pythonPairs_nodup _, fun i j => pythonPairs_mem _ i j⟩, ?_, ?_⟩
  · rw [flattenResults, List.length_map, pythonPairs_length]
  · intro i j hij hjn
    exact List.mem_map.mpr ⟨(i, j), (pythonPairs_mem _ i j).mpr ⟨hij, hjn⟩, rfl⟩
  · intro r hr
    obtain ⟨p, hp, rfl⟩ := List.mem_map.mp hr
    have hpm : (p.1, p.2) ∈ pythonPairs names.length := by
      rw [Prod.mk.eta]; exact hp
    obtain ⟨hij, hjn⟩ := (pythonPairs_mem _ p.1 p.2).mp hpm
    obtain ⟨hM0, hM1⟩ := hM p.1 p.2 (hij.trans hjn) hjn
    constructor
    · simpa [scoreOf] using mul_nonneg hM0 (by norm_num : (0:ℚ) ≤ 100)
    · have := mul_le_mul_of_nonneg_right hM1 (by norm_num : (0:ℚ) ≤ 100)
      simpa [scoreOf] using this

/-- Witness for C2: a three-document corpus with the constant off-diagonal
matrix `1/2` satisfies the flattening contract. -/
theorem flattenResults_spec_witness :
    (flattenResults ["a.txt", "b.txt", "c.txt"] halfMatrix).length =
      (["a.txt", "b.txt", "c.txt"] : List String).length *
        ((["a.txt", "b.txt", "c.txt"] : List String).length - 1) / 2 ∧
    ((pythonPairs (["a.txt", "b.txt", "c.txt"] : List String).length).Nodup ∧
      ∀ i j : ℕ, (i, j) ∈ pythonPairs (["a.txt", "b.txt", "c.txt"] : List String).length ↔
        i < j ∧ j < (["a.txt", "b.txt", "c.txt"] : List String).length) ∧
    (∀ i j : ℕ, i < j → j < (["a.txt", "b.txt", "c.txt"] : List String).length →
      ((["a.txt", "b.txt", "c.txt"] : List String).getD i "",
        (["a.txt", "b.txt", "c.txt"] : List String).getD j "",
        halfMatrix i j * 100) ∈ flattenResults ["a.txt", "b.txt", "c.txt"] halfMatrix) ∧
    (∀ r ∈ flattenResults ["a.txt", "b.txt", "c.txt"] halfMatrix,
      0 ≤ scoreOf r ∧ scoreOf r ≤ 100) :=
  flattenResults_spec ["a.txt", "b.txt", "c.txt"] halfMatrix
    (fun i j _ _ => by unfold halfMatrix; split_ifs <;> norm_num)

/-- Inserting an element whose score differs from `c` does not change the
score-`c` elements of a list. -/
theorem filter_orderedInsert_of_ne (c : ℚ) (x : String × String × ℚ) (hx : scoreOf x ≠ c)
    (l : List (String × String × ℚ)) :
    (List.orderedInsert scoreGe x l).filter (fun r => decide (scoreOf r = c)) =
      l.filter (fun r => decide (scoreOf r = c)) := by
  induction l with
  | nil => simp [List.orderedInsert, hx]
  | cons b bs ih =>
    by_cases hr : scoreGe x b
    · simp [List.orderedInsert, hr, List.filter_cons, hx]
    · simp only [List.orderedInsert, if_neg hr, List.filter_cons, ih]

/-- Inserting an element of score `c` puts it in front of every score-`c`
element already present: elements passed over by the insertion have strictly
larger scores. -/
theorem filter_orderedInsert_of_eq (c : ℚ) (x : String × String × ℚ) (hx : scoreOf x = c)
    (l : List (String × String × ℚ)) :
    (List.orderedInsert scoreGe x l).filter (fun r => decide (scoreOf r = c)) =
      x :: l.filter (fun r => decide (scoreOf r = c)) := by
  induction l with
  | nil => simp [List.orderedInsert, hx]
  | cons b bs ih =>
    by_cases hr : scoreGe x b
    · simp [List.orderedInsert, hr, List.filter_cons, hx]
    · have hb : scoreOf b ≠ c := by
        intro hbc
        exact hr (le_of_eq (hbc.trans hx.symm))
      simp only [List.orderedInsert, if_neg hr, List.filter_cons, hb, ih]
      simp [hb]

/-- The stable sort keeps the elements of any fixed score in their original
relative order. -/
theorem filter_insertionSort_eq (c : ℚ) (rs : List (String × String × ℚ)) :
    (List.insertionSort scoreGe rs).filter (fun r => decide (scoreOf r = c)) =
      rs.filter (fun r => decide (scoreOf r = c)) := by
  induction rs with
  | nil => rfl
  | cons x xs ih =>
    by_cases hx : scoreOf x = c
    · rw [List.insertionSort, filter_orderedInsert_of_eq c x hx, ih, List.filter_cons]
      simp [hx]
    · rw [List.insertionSort, filter_orderedInsert_of_ne c x hx, ih, List.filter_cons]
      simp [hx]

/-- Claim C4: the reporting sort returns a permutation of its input ordered
by descending score, and for every score value the elements carrying it keep
their relative order from the original pair-enumeration order (stability);
being a function of the input list, it is deterministic. -/
theorem sortResults_spec (rs : List (String × String × ℚ)) :
    List.Perm (sortResults rs) rs ∧
    List.Sorted scoreGe (sortResults rs) ∧
    ∀ c : ℚ, (sortResults rs).filter (fun r => decide (scoreOf r = c)) =
      rs.filter (fun r => decide (scoreOf r = c)) :=
  ⟨List.perm_insertionSort scoreGe rs, List.sorted_insertionSort scoreGe rs,
    fun c => filter_insertionSort_eq c rs⟩

/-- In a descending-sorted list the first element has the maximum score. -/
theorem sorted_headD_max (rs : List (String × String × ℚ))
    (h : List.Sorted scoreGe rs) : ∀ r ∈ rs, scoreOf r ≤ scoreOf (rs.headD dummyResult) := by
  cases rs with
  | nil => intro r hr; cases hr
  | cons x xs =>
    intro r hr
    rcases List.mem_cons.mp hr with rfl | hr'
    · exact le_refl _
    · exact (List.sorted_cons.mp h).1 r hr'

/-- In a descending-sorted list the last element has the minimum score. -/
theorem sorted_getLastD_min (rs : List (String × String × ℚ)) :
    List.Sorted scoreGe rs → ∀ d r, r ∈ rs → scoreOf (rs.getLastD d) ≤ scoreOf r := by
  induction rs with
  | nil => intro _ d r hr; cases hr
  | cons x xs ih =>
    intro h d r hr
    rw [List.getLastD_cons]
    cases xs with
    | nil =>
      have hrx : r = x := by simpa using hr
      subst hrx
      exact le_refl _
    | cons y t =>
      rcases List.mem_cons.mp hr with rfl | hr'
      · rcases List.mem_cons.mp (List.getLastD_mem_cons (y :: t) r) with heq | hmem
        · rw [heq]
        · exact (List.sorted_cons.mp h).1 _ hmem
      · exact ih (List.sorted_cons.mp h).2 x r hr'

/-- Claim C5: on a non-empty sorted result list, the aggregator reports
`highest = results[0]` (which has the maximum score), `lowest = results[-1]`
(which has the minimum score) and `avg` equal to the arithmetic mean of the
scores (`avg * n = sum of scores`). -/
theorem aggregate_spec (rs : List (String × String × ℚ))
    (hne : rs ≠ []) (hsorted : List.Sorted scoreGe rs) :
    (aggregate rs).highest = rs.headD dummyResult ∧
    (∀ r ∈ rs, scoreOf r ≤ scoreOf (aggregate rs).highest) ∧
    (aggregate rs).lowest = rs.getLastD dummyResult ∧
    (∀ r ∈ rs, scoreOf (aggregate rs).lowest ≤ scoreOf r) ∧
    (aggregate rs).avg * (rs.length : ℚ) = (rs.map scoreOf).sum := by
  have hlen : (rs.length : ℚ) ≠ 0 := by
    simpa using fun h0 => hne (List.length_eq_zero.mp h0)
  exact ⟨rfl, sorted_headD_max rs hsorted, rfl,
    fun r hr => sorted_getLastD_min rs hsorted dummyResult r hr,
    div_mul_cancel₀ _ hlen⟩

/-- Witness for C5: for the sorted scores 100, 60, 20 the aggregator yields
highest score 100, lowest score 20 and average 60. -/
theorem aggregate_spec_witness :
    ((aggregate sampleSorted).highest = sampleSorted.headD dummyResult ∧
      (∀ r ∈ sampleSorted, scoreOf r ≤ scoreOf (aggregate sampleSorted).highest) ∧
      (aggregate sampleSorted).lowest = sampleSorted.getLastD dummyResult ∧
      (∀ r ∈ sampleSorted, scoreOf (aggregate sampleSorted).lowest ≤ scoreOf r) ∧
      (aggregate sampleSorted).avg * (sampleSorted.length : ℚ) =
        (sampleSorted.map scoreOf).sum) ∧
    (aggregate sampleSorted).avg = 60 ∧
    scoreOf (aggregate sampleSorted).highest = 100 ∧
    scoreOf (aggregate sampleSorted).lowest = 20 :=
  ⟨aggregate_spec sampleSorted (by simp [sampleSorted]) (by decide),
    by norm_num [aggregate, sampleSorted, scoreOf],
    by norm_num [aggregate, sampleSorted, scoreOf, dummyResult],
    by norm_num [aggregate, sampleSorted, scoreOf, dummyResult]⟩

end DocSim
